import Mathlib

/-!
The go-tdlib client core: a shallow embedding.

The development follows the three pieces of `client/`:

* `authorization.go`   : the `Authorize` driver loop and the three authorizers
  (`clientAuthorizer`, `botAuthorizer`, `qrAuthorizer`);
* `client.go`          : `Client.receiver` and `Client.Send` over the
  `catchersStore` registry;
* `ratelimiter/`       : `rateLimiter.TDLibCallback` and the `windUp` strategy.

Go `error` values are `Option Error` (`none` is `nil`).  Calls that leave the
repository (the generated request methods, the JSON transport, channels, the
clock) are recorded in an event trace and their outcomes are inputs of the
embedded function.
-/

namespace GoTdlib

/-! ## authorization.go -/

/-- Modelled from the spec: the `AuthorizationState` tagged variant of the generated
type layer (absent from the sources), with the twelve constructors that
`authorization.go` switches on.  `Unknown` stands for any further constructor
string, which the Go switches send to their fall-through `return`. -/
inductive AuthorizationState where
  | WaitTdlibParameters
  | WaitPhoneNumber
  | WaitEmailAddress
  | WaitEmailCode
  | WaitCode
  | WaitOtherDeviceConfirmation (Link : String)
  | WaitRegistration
  | WaitPassword
  | Ready
  | LoggingOut
  | Closing
  | Closed
  | Unknown (constructor : String)
  deriving DecidableEq, Repr

/-- Go `error`: the `notSupportedAuthorizationState` struct of `authorization.go`,
or any other error value (transport, context, decode). -/
inductive Error where
  | notSupportedAuthorizationState (state : AuthorizationState)
  | other (msg : String)
  deriving DecidableEq, Repr

/-- `NotSupportedAuthorizationState(state)` -/
def NotSupportedAuthorizationState (state : AuthorizationState) : Option Error :=
  some (Error.notSupportedAuthorizationState state)

/-- Modelled from the spec: the request values that `authorization.go` hands to the
generated client methods (absent from the sources); `P` is the uninterpreted startup
parameter payload `*SetTdlibParametersRequest`. -/
inductive AuthRequest (P : Type) where
  | GetAuthorizationState
  | SetTdlibParameters (params : P)
  | SetAuthenticationPhoneNumber (PhoneNumber : String)
      (AllowFlashCall IsCurrentPhoneNumber AllowSmsRetrieverApi : Bool)
  | CheckAuthenticationCode (Code : String)
  | CheckAuthenticationPassword (Password : String)
  | CheckAuthenticationBotToken (Token : String)
  | RequestQrCodeAuthentication
  deriving DecidableEq, Repr

/-- What a handler does besides returning: requests handed to the client,
values pushed on the `State` channel, link sink invocations, sleeps (seconds). -/
inductive AuthEvent (P : Type) where
  | request (req : AuthRequest P)
  | stateSent (state : AuthorizationState)
  | linkHandled (link : String)
  | sleep (seconds : Nat)
  deriving DecidableEq, Repr

/-- The client as seen by a handler: the error each generated request method
returns (the response value is discarded by every handler, `_, err := ...`). -/
abbrev ClientCall (P : Type) := AuthRequest P → Option Error

/-- One iteration of the `Authorize` loop, as the environment answers it:
the result of `client.GetAuthorizationState` and, should the loop call it,
the error of `client.SetTdlibParameters`. -/
structure Round where
  state : Except Error AuthorizationState
  setParams : Option Error
  deriving Repr

/-- The body of the `for` loop of `Authorize`, one round per iteration.
`none` means the rounds ran out while the loop was still running. -/
def AuthorizeLoop {P : Type} (tdlibParams : P) (authorizationError : Option Error) :
    List Round → List (AuthEvent P) → Option (Option Error × List (AuthEvent P))
  | [], _ => none
  | r :: rounds, trace =>
    let trace := trace ++ [AuthEvent.request AuthRequest.GetAuthorizationState]
    match r.state with
    | .error err => some (some err, trace)
    | .ok state =>
      match state with
      | .WaitTdlibParameters =>
        let trace := trace ++ [AuthEvent.request (AuthRequest.SetTdlibParameters tdlibParams)]
        match r.setParams with
        | some err => some (some err, trace)
        | none => AuthorizeLoop tdlibParams authorizationError rounds trace
      | .Closed => some (authorizationError, trace)
      | .Ready => some (none, trace ++ [AuthEvent.sleep 1])
      | .WaitPhoneNumber => some (none, trace)
      | .WaitCode => some (none, trace)
      | _ => some (NotSupportedAuthorizationState state, trace)

/-- `Authorize(client)`: `var authorizationError error` starts as `nil` and is
never assigned. -/
def Authorize {P : Type} (tdlibParams : P) (rounds : List Round) :
    Option (Option Error × List (AuthEvent P)) :=
  AuthorizeLoop tdlibParams none rounds []

/-- Result of a `Handle` call: the returned error and the events, in order. -/
structure HandleResult (P : Type) where
  err : Option Error
  trace : List (AuthEvent P)
  deriving DecidableEq, Repr

/-- `clientAuthorizer`: the channels are the environment; the values received
from `PhoneNumber`, `Code` and `Password` are inputs of `Handle`. -/
structure clientAuthorizer (P : Type) where
  TdlibParameters : P

/-- Values that the three input channels deliver when `Handle` reads them. -/
structure ChannelInputs where
  PhoneNumber : String
  Code : String
  Password : String

/-- `(*clientAuthorizer).Handle` -/
def clientAuthorizer.Handle {P : Type} (stateHandler : clientAuthorizer P)
    (client : ClientCall P) (chans : ChannelInputs) (state : AuthorizationState) :
    HandleResult P :=
  let sent := AuthEvent.stateSent state
  let call (req : AuthRequest P) : HandleResult P :=
    { err := client req, trace := [sent, AuthEvent.request req] }
  match state with
  | .WaitTdlibParameters => call (.SetTdlibParameters stateHandler.TdlibParameters)
  | .WaitPhoneNumber =>
    call (.SetAuthenticationPhoneNumber chans.PhoneNumber false false false)
  | .WaitEmailAddress => { err := NotSupportedAuthorizationState state, trace := [sent] }
  | .WaitEmailCode => { err := NotSupportedAuthorizationState state, trace := [sent] }
  | .WaitCode => call (.CheckAuthenticationCode chans.Code)
  | .WaitOtherDeviceConfirmation _ =>
    { err := NotSupportedAuthorizationState state, trace := [sent] }
  | .WaitRegistration => { err := NotSupportedAuthorizationState state, trace := [sent] }
  | .WaitPassword => call (.CheckAuthenticationPassword chans.Password)
  | .Ready => { err := none, trace := [sent] }
  | .LoggingOut => { err := NotSupportedAuthorizationState state, trace := [sent] }
  | .Closing => { err := none, trace := [sent] }
  | .Closed => { err := none, trace := [sent] }
  | .Unknown _ => { err := NotSupportedAuthorizationState state, trace := [sent] }

/-- `botAuthorizer` -/
structure botAuthorizer (P : Type) where
  tdlibParameters : P
  token : String

/-- `(*botAuthorizer).Handle` -/
def botAuthorizer.Handle {P : Type} (stateHandler : botAuthorizer P)
    (client : ClientCall P) (state : AuthorizationState) : HandleResult P :=
  let call (req : AuthRequest P) : HandleResult P :=
    { err := client req, trace := [AuthEvent.request req] }
  match state with
  | .WaitTdlibParameters => call (.SetTdlibParameters stateHandler.tdlibParameters)
  | .WaitPhoneNumber => call (.CheckAuthenticationBotToken stateHandler.token)
  | .WaitEmailAddress => { err := NotSupportedAuthorizationState state, trace := [] }
  | .WaitEmailCode => { err := NotSupportedAuthorizationState state, trace := [] }
  | .WaitCode => { err := NotSupportedAuthorizationState state, trace := [] }
  | .WaitOtherDeviceConfirmation _ =>
    { err := NotSupportedAuthorizationState state, trace := [] }
  | .WaitRegistration => { err := NotSupportedAuthorizationState state, trace := [] }
  | .WaitPassword => { err := NotSupportedAuthorizationState state, trace := [] }
  | .Ready => { err := none, trace := [] }
  | .LoggingOut => { err := NotSupportedAuthorizationState state, trace := [] }
  | .Closing => { err := NotSupportedAuthorizationState state, trace := [] }
  | .Closed => { err := NotSupportedAuthorizationState state, trace := [] }
  | .Unknown _ => { err := NotSupportedAuthorizationState state, trace := [] }

/-- `qrAuthorizer`.  `LinkHandler` is a Go closure: it may keep state of its
own (`σ`) and returns an error or `nil`. -/
structure qrAuthorizer (P σ : Type) where
  TdlibParameters : P
  lastLink : String
  LinkHandler : σ → String → Option Error × σ
  sink : σ

/-- `QrAuthorizer(tdlibParameters, linkHandler)`: `lastLink` is the zero string. -/
def QrAuthorizer {P σ : Type} (tdlibParameters : P)
    (linkHandler : σ → String → Option Error × σ) (sink : σ) : qrAuthorizer P σ :=
  { TdlibParameters := tdlibParameters, lastLink := "", LinkHandler := linkHandler,
    sink := sink }

/-- `(*qrAuthorizer).Handle`: returns the result and the authorizer afterwards;
`password` is the value read from the `Password` channel. -/
def qrAuthorizer.Handle {P σ : Type} (stateHandler : qrAuthorizer P σ)
    (client : ClientCall P) (password : String) (state : AuthorizationState) :
    HandleResult P × qrAuthorizer P σ :=
  let call (req : AuthRequest P) : HandleResult P × qrAuthorizer P σ :=
    ({ err := client req, trace := [AuthEvent.request req] }, stateHandler)
  let unsupported : HandleResult P × qrAuthorizer P σ :=
    ({ err := NotSupportedAuthorizationState state, trace := [] }, stateHandler)
  match state with
  | .WaitTdlibParameters => call (.SetTdlibParameters stateHandler.TdlibParameters)
  | .WaitPhoneNumber => call .RequestQrCodeAuthentication
  | .WaitOtherDeviceConfirmation link =>
    if link = stateHandler.lastLink then
      ({ err := none, trace := [] }, stateHandler)
    else
      match stateHandler.LinkHandler stateHandler.sink link with
      | (some err, sink) =>
        ({ err := some err, trace := [AuthEvent.linkHandled link] },
          { stateHandler with sink := sink })
      | (none, sink) =>
        ({ err := none, trace := [AuthEvent.linkHandled link] },
          { stateHandler with sink := sink, lastLink := link })
  | .WaitCode => unsupported
  | .WaitPassword => call (.CheckAuthenticationPassword password)
  | .Ready => ({ err := none, trace := [] }, stateHandler)
  | .LoggingOut => unsupported
  | .Closing => unsupported
  | .Closed => unsupported
  | _ => unsupported

/-- Number of link sink invocations in a trace. -/
def sinkCalls {P : Type} (trace : List (AuthEvent P)) : Nat :=
  (trace.filter (fun e => match e with | AuthEvent.linkHandled _ => true | _ => false)).length

/-- Requests handed to the client in a trace. -/
def requestsOf {P : Type} : List (AuthEvent P) → List (AuthRequest P)
  | [] => []
  | AuthEvent.request r :: t => r :: requestsOf t
  | _ :: t => requestsOf t

/-- As the spec words it: what `Authorize` returns at the first fetched state
that is not `WaitTdlibParameters` (the accumulated error is `nil`, nothing ever
assigns it). -/
def authorizeVerdict (state : AuthorizationState) : Option Error :=
  if state = AuthorizationState.Ready ∨ state = AuthorizationState.WaitPhoneNumber ∨
      state = AuthorizationState.WaitCode then none
  else if state = AuthorizationState.Closed then none
  else some (Error.notSupportedAuthorizationState state)

/-- The round in which the engine reports `WaitTdlibParameters` and accepts
the parameters. -/
def paramsRound : Round :=
  { state := .ok AuthorizationState.WaitTdlibParameters, setParams := none }

/-! ## ratelimiter/strategy/windup.go

`float64` rates are exact rationals; the one non-finite value that can reach
`updateRate` is `+Inf`, the quotient of a positive count by a zero duration.
Go `int` and `time.Duration` are 64-bit two's complement.  A `time.Time` is its
nanosecond instant, `0` being the zero `time.Time{}`. -/

/-- Reduction of an integer to the signed 64-bit range (Go `int`, `int64`). -/
def wrapInt64 (x : Int) : Int :=
  (x + 2 ^ 63) % 2 ^ 64 - 2 ^ 63

/-- A `float64` handed to `updateRate`: a finite value or `+Inf`. -/
inductive F64 where
  | finite (q : ℚ)
  | inf
  deriving DecidableEq, Repr

/-- The constant `startRate`. -/
def startRate : ℚ := 2
/-- The constant `updateEvery`. -/
def updateEvery : Int := 2
/-- The constant `windUpFactor`, 1.05. -/
def windUpFactor : ℚ := 21 / 20
/-- The constant `maxRate`. -/
def maxRate : ℚ := 10

/-- `windUp`.  `limiter` is the limit the `rate.Limiter` is programmed to
(its burst is the constant 1; the mutex serialises the calls below). -/
structure windUp where
  currentRate : ℚ
  updateEvery : Int
  windUpFactor : ℚ
  limiter : ℚ
  isServingPenalty : Bool
  reqsSinceUpdate : Int
  reqsSinceFW : Int
  firstReqSinceFW : Int
  deriving DecidableEq, Repr

/-- `WindUp()` -/
def WindUp : windUp :=
  { currentRate := startRate, updateEvery := updateEvery, windUpFactor := windUpFactor,
    limiter := startRate, isServingPenalty := false, reqsSinceUpdate := 0,
    reqsSinceFW := 0, firstReqSinceFW := 0 }

/-- `(*windUp).CurrentRate` -/
def windUp.CurrentRate (w : windUp) : ℚ := w.currentRate

/-- `(*windUp).updateRate` -/
def windUp.updateRate (w : windUp) (newRate : F64) : windUp :=
  let newRate : ℚ :=
    match newRate with
    | F64.inf => maxRate
    | F64.finite r => if r > maxRate then maxRate else r
  { w with reqsSinceUpdate := 0, currentRate := newRate, limiter := newRate }

/-- `(*windUp).Wait`; `now` is what `time.Now()` returns.  The suspension in
`w.limiter.Wait` is not part of the state. -/
def windUp.Wait (w : windUp) (now : Int) : windUp :=
  let w := if w.reqsSinceUpdate ≥ w.updateEvery then
      w.updateRate (F64.finite (w.currentRate * w.windUpFactor)) else w
  let w := if w.firstReqSinceFW = 0 then { w with firstReqSinceFW := now } else w
  { w with reqsSinceUpdate := wrapInt64 (w.reqsSinceUpdate + 1),
           reqsSinceFW := wrapInt64 (w.reqsSinceFW + 1) }

/-- `t.Sub(u)`: the difference in nanoseconds, saturating at the `Duration` range. -/
def timeSub (t u : Int) : Int :=
  if t - u > 2 ^ 63 - 1 then 2 ^ 63 - 1
  else if t - u < -(2 ^ 63) then -(2 ^ 63)
  else t - u

/-- `Duration.Abs`: the minimum duration maps to the maximum. -/
def durationAbs (d : Int) : Int :=
  if d ≥ 0 then d
  else if d = -(2 ^ 63) then 2 ^ 63 - 1
  else -d

/-- `Duration.Seconds` -/
def durationSeconds (d : Int) : ℚ := (d : ℚ) / 1000000000

/-- `time.Now().Sub(w.firstReqSinceFW).Abs().Seconds()` -/
def reqsDuration (now first : Int) : ℚ :=
  durationSeconds (durationAbs (timeSub now first))

/-- The `float64` quotient `a / d` of a positive `a`: `+Inf` when `d` is zero. -/
def divF64 (a d : ℚ) : F64 :=
  if d = 0 then F64.inf else F64.finite (a / d)

/-- `time.Duration(secs) * time.Second`, in nanoseconds. -/
def secondsDuration (secs : Int) : Int :=
  wrapInt64 (secs * 1000000000)

/-- `time.Sleep(d)`: nanoseconds actually slept (nothing for `d <= 0`). -/
def sleepTime (d : Int) : Int :=
  if d ≤ 0 then 0 else d

/-- `(*windUp).FloodWaitEvent`; returns the state on return together with the
rate programmed before the sleep and the nanoseconds slept (`none` when the
call returned at the single-flight guard). -/
def windUp.FloodWaitEvent (w : windUp) (now : Int) (secs : Int) :
    windUp × Option (ℚ × Int) :=
  if w.isServingPenalty then (w, none)
  else
    let w := { w with isServingPenalty := true }
    let w :=
      if w.firstReqSinceFW ≠ 0 ∧ w.reqsSinceFW > 0 then
        w.updateRate (divF64 (w.reqsSinceFW : ℚ) (reqsDuration now w.firstReqSinceFW + (secs : ℚ)))
      else
        w.updateRate (F64.finite startRate)
    let slept := sleepTime (secondsDuration secs)
    ({ w with reqsSinceFW := 0, firstReqSinceFW := 0, isServingPenalty := false },
      some (w.currentRate, slept))

/-- Successive `Wait` calls, one per `time.Now()` reading. -/
def runWaits (w : windUp) (nows : List Int) : windUp :=
  nows.foldl windUp.Wait w

/-- As the spec words it: the rate after `n >= 1` admitted requests with no
penalty, `min(maxRate, startRate * windUpFactor^floor((n-1)/updateEvery))`. -/
def windUpRateAfter (n : Nat) : ℚ :=
  min maxRate (startRate * windUpFactor ^ ((n - 1) / updateEvery.toNat))

/-- As the spec words it: the rate a penalty of `secs` seconds recomputes,
`min(maxRate, R / (E + S))` when there is history (the quotient by a zero
`E + S` being `+Inf`), and `startRate` otherwise. -/
def penaltyRate (w : windUp) (now secs : Int) : ℚ :=
  if w.firstReqSinceFW ≠ 0 ∧ w.reqsSinceFW > 0 then
    if reqsDuration now w.firstReqSinceFW + (secs : ℚ) = 0 then maxRate
    else min maxRate ((w.reqsSinceFW : ℚ) / (reqsDuration now w.firstReqSinceFW + (secs : ℚ)))
  else startRate

/-- The state of a `windUp` with the constants of `WindUp()` after `m + 1`
admitted requests and no penalty. -/
def WoundUp (m : Nat) (w : windUp) : Prop :=
  w.updateEvery = 2 ∧ w.windUpFactor = 21 / 20 ∧ w.reqsSinceUpdate = ((m % 2 : Nat) : Int) + 1 ∧
    w.currentRate = min 10 (2 * (21 / 20) ^ (m / 2))

/-- Two admitted requests, one and two seconds into the run. -/
def twoRequests : windUp := runWaits WindUp [1000000000, 2000000000]

/-! ## ratelimiter/ratelimiter.go -/

/-- The literal text of the pattern `FLOOD_WAIT_(\d+)` before the group. -/
def floodWaitMarker : List Char := "FLOOD_WAIT_".toList

/-- An anchored match of `FLOOD_WAIT_(\d+)` at the head of `s`: the
capture group (`\d` is an ASCII digit, `+` is greedy). -/
def matchFloodWaitHere (s : List Char) : Option (List Char) :=
  if floodWaitMarker.isPrefixOf s then
    let digits := (s.drop floodWaitMarker.length).takeWhile Char.isDigit
    if digits = [] then none else some digits
  else none

/-- `floodWaitRE.FindStringSubmatch(message)`, reduced to `matches[1]`:
the leftmost position with a match wins; `none` is the `nil` slice. -/
def findFloodWaitSubmatch : List Char → Option (List Char)
  | [] => none
  | c :: cs =>
    match matchFloodWaitHere (c :: cs) with
    | some digits => some digits
    | none => findFloodWaitSubmatch cs

/-- Value of a string of decimal digits. -/
def decimalValue (digits : List Char) : Nat :=
  digits.foldl (fun acc c => 10 * acc + (c.toNat - 48)) 0

/-- `strconv.ParseInt(s, 10, 16)` on a non-empty string of decimal digits:
the value, or `none` for the range error above `1<<15 - 1`. -/
def ParseInt16 (digits : List Char) : Option Int :=
  if decimalValue digits ≤ 32767 then some (decimalValue digits : Int) else none

/-- What `TDLibCallback` does: error log lines and calls of the strategy. -/
inductive CallbackEvent where
  | logError (penalty : Int)
  | FloodWaitEvent (secs : Int)
  deriving DecidableEq, Repr

/-- `(*rateLimiter).TDLibCallback` -/
def TDLibCallback (verbosityLevel : Int) (message : String) : List CallbackEvent :=
  if verbosityLevel ≠ 2 then []
  else
    match findFloodWaitSubmatch message.toList with
    | none => []
    | some digits =>
      match ParseInt16 digits with
      | none => []
      | some penalty =>
        (if penalty ≥ 120 then [CallbackEvent.logError penalty] else [])
          ++ [CallbackEvent.FloodWaitEvent penalty]

/-- The strategy calls among the events. -/
def floodWaitCalls : List CallbackEvent → List Int
  | [] => []
  | CallbackEvent.FloodWaitEvent secs :: t => secs :: floodWaitCalls t
  | _ :: t => floodWaitCalls t

/-- As the spec words it: the marker followed by the decimal integer `digits`,
taken maximally, occurs in `msg` right after `pre`. -/
def FloodWaitOccursAt (msg pre digits post : List Char) : Prop :=
  msg = pre ++ floodWaitMarker ++ digits ++ post ∧ digits ≠ [] ∧
    (∀ c ∈ digits, c.isDigit = true) ∧ (∀ c, post.head? = some c → c.isDigit = false)

/-- As the spec words it: `digits` is the integer of the leftmost occurrence. -/
def LeftmostFloodWait (msg digits : List Char) : Prop :=
  ∃ pre post, FloodWaitOccursAt msg pre digits post ∧
    ∀ pre2 digits2 post2, FloodWaitOccursAt msg pre2 digits2 post2 → pre.length ≤ pre2.length


/-! ## client.go -/

/-- Modelled from the spec: the inbound envelope `Response` (its declaration is
absent from the sources): the raw payload and the correlation field, which is
the empty string on push messages. -/
structure Response where
  Data : String
  MetaExtra : String
  deriving DecidableEq, Repr

/-- Modelled from the spec: the decoded value `Type` of the generated type layer
(absent from the sources), as far as `receiver` inspects it: an
`UpdateAuthorizationState` carrying its state, or any other constructor. -/
inductive TdType where
  | UpdateAuthorizationState (AuthorizationState : AuthorizationState)
  | other (constructor : String) (payload : String)
  deriving DecidableEq, Repr

/-- A channel `chan *Response`, by identity. -/
abbrev Chan := Nat

/-- `sync.Map.Load` on the `catchersStore`, kept as an association list. -/
def Load (store : List (String × Chan)) (key : String) : Option Chan :=
  match store with
  | [] => none
  | (k, v) :: rest => if k = key then some v else Load rest key

/-- `sync.Map.Delete` -/
def Delete (store : List (String × Chan)) (key : String) : List (String × Chan) :=
  store.filter (fun kv => kv.1 ≠ key)

/-- `sync.Map.Store` -/
def Store (store : List (String × Chan)) (key : String) (value : Chan) :
    List (String × Chan) :=
  (key, value) :: Delete store key

/-- The fields of `Client` that `receiver` and `Send` read or write.
`responsesClosed` is the closed flag of the `responses` channel. -/
structure Client where
  catchersStore : List (String × Chan)
  isClosed : Bool
  responsesClosed : Bool
  rateLimiter : windUp
  deriving DecidableEq, Repr

/-- What `receiver` and `Send` do to their surroundings, in order. -/
inductive ClientEvent where
  | chanSend (catcher : Chan) (response : Response)
  | OnResult (result : TdType)
  | closeResponses
  | jsonSend (extra : String)
  | closeCatcher (catcher : Chan)
  deriving DecidableEq, Repr

/-- Outcome of one iteration of the `receiver` loop. `panicked` is the runtime
panic of closing the already closed `responses` channel. -/
structure ReceiverStep where
  client : Client
  trace : List ClientEvent
  panicked : Bool
  deriving DecidableEq, Repr

/-- The condition under which `receiver` closes the `responses` channel. -/
def isAuthorizationStateClosed (typ : TdType) : Bool :=
  match typ with
  | TdType.UpdateAuthorizationState AuthorizationState.Closed => true
  | _ => false

/-- The first statement of the `receiver` loop body: a response with a
non-empty `MetaExtra` is sent on the channel that `Load` finds, if any. -/
def deliver (client : Client) (response : Response) : List ClientEvent :=
  if response.MetaExtra ≠ "" then
    match Load client.catchersStore response.MetaExtra with
    | some value => [ClientEvent.chanSend value response]
    | none => []
  else []

/-- The body of the `for response := range client.responses` loop of
`(*Client).receiver`; `UnmarshalType` is the generated decoder. -/
def receiverStep (UnmarshalType : String → Except Error TdType) (client : Client)
    (response : Response) : ReceiverStep :=
  let delivered : List ClientEvent := deliver client response
  match UnmarshalType response.Data with
  | .error _ => { client := client, trace := delivered, panicked := false }
  | .ok typ =>
    let trace := delivered ++ [ClientEvent.OnResult typ]
    if isAuthorizationStateClosed typ then
      if client.responsesClosed then
        { client := { client with isClosed := true }, trace := trace, panicked := true }
      else
        { client := { client with isClosed := true, responsesClosed := true },
          trace := trace ++ [ClientEvent.closeResponses], panicked := false }
    else { client := client, trace := trace, panicked := false }

/-- `(*Client).receiver` over the messages the `responses` channel yields, in
order (a closed channel still yields what it has buffered). -/
def receiver (UnmarshalType : String → Except Error TdType) :
    Client → List Response → ReceiverStep
  | client, [] => { client := client, trace := [], panicked := false }
  | client, response :: rest =>
    let step := receiverStep UnmarshalType client response
    if step.panicked then step
    else
      let tail := receiver UnmarshalType step.client rest
      { tail with trace := step.trace ++ tail.trace }

/-- The responses that a trace delivers into the channel `catcher`. -/
def deliveredTo (catcher : Chan) : List ClientEvent → List Response
  | [] => []
  | ClientEvent.chanSend c r :: t =>
    if c = catcher then r :: deliveredTo catcher t else deliveredTo catcher t
  | _ :: t => deliveredTo catcher t

/-- The values the result handler is invoked with in a trace. -/
def observed : List ClientEvent → List TdType
  | [] => []
  | ClientEvent.OnResult typ :: t => typ :: observed t
  | _ :: t => observed t

/-- Which branch of the `select` in `Send` fires. -/
inductive SelectOutcome where
  | received (response : Response)
  | ctxDone (err : Error)
  | fallbackDone (err : Error)
  deriving DecidableEq, Repr

/-- What `Send` meets on its way: the id from `extraGenerator`, the channel
that `make` returns, the clock reading inside `rateLimiter.Wait`, the error of
`jsonClient.Send`, and the `select` branch taken if it gets that far. -/
structure SendEnv where
  extra : String
  catcher : Chan
  now : Int
  sendErr : Option Error
  outcome : SelectOutcome
  deriving DecidableEq, Repr

/-- `(*Client).Send`: the returned pair, the client afterwards (the deferred
`Delete` and `close` have run) and the events. -/
def Send (client : Client) (env : SendEnv) :
    (Option Response × Option Error) × Client × List ClientEvent :=
  let client := { client with catchersStore := Store client.catchersStore env.extra env.catcher }
  let client := { client with rateLimiter := client.rateLimiter.Wait env.now }
  let deferred (c : Client) : Client :=
    { c with catchersStore := Delete c.catchersStore env.extra }
  match env.sendErr with
  | some err =>
    ((none, some err), deferred client,
      [ClientEvent.jsonSend env.extra, ClientEvent.closeCatcher env.catcher])
  | none =>
    let result : Option Response × Option Error :=
      match env.outcome with
      | .received response => (some response, none)
      | .ctxDone err => (none, some err)
      | .fallbackDone err => (none, some err)
    (result, deferred client,
      [ClientEvent.jsonSend env.extra, ClientEvent.closeCatcher env.catcher])

/-! ## Theorems -/

/-! ### The registry -/

theorem Load_Delete (store : List (String × Chan)) (key k : String) :
    Load (Delete store key) k = if k = key then none else Load store k := by
  induction store with
  | nil => simp [Delete, Load]
  | cons kv rest ih =>
    obtain ⟨a, v⟩ := kv
    simp only [Delete] at ih
    by_cases ha : a = key
    · subst ha
      by_cases hk : k = a
      · subst hk; simpa [Delete, List.filter, Load] using ih
      · have hk2 : ¬ a = k := fun h => hk h.symm
        simpa [Delete, List.filter, Load, hk, hk2] using ih
    · by_cases hk : k = key
      · subst hk
        simpa [Delete, List.filter, Load, ha] using ih
      · by_cases hak : a = k
        · subst hak; simp [Delete, List.filter, Load, ha]
        · simpa [Delete, List.filter, Load, ha, hk, hak] using ih

theorem Load_Store (store : List (String × Chan)) (key k : String) (v : Chan) :
    Load (Store store key v) k = if k = key then some v else Load store k := by
  by_cases hk : k = key
  · subst hk; simp [Store, Load]
  · have hk2 : ¬ key = k := fun h => hk h.symm
    simp [Store, Load, hk, hk2, Load_Delete]

/-! ### client.go -/

theorem deliveredTo_append (catcher : Chan) (l m : List ClientEvent) :
    deliveredTo catcher (l ++ m) = deliveredTo catcher l ++ deliveredTo catcher m := by
  induction l with
  | nil => simp [deliveredTo]
  | cons e t ih =>
    cases e <;> simp [deliveredTo, ih]
    split <;> simp

theorem observed_append (l m : List ClientEvent) :
    observed (l ++ m) = observed l ++ observed m := by
  induction l with
  | nil => simp [observed]
  | cons e t ih => cases e <;> simp [observed, ih]

theorem deliveredTo_deliver (client : Client) (response : Response) (catcher : Chan) :
    deliveredTo catcher (deliver client response) =
      (if response.MetaExtra ≠ "" ∧
          Load client.catchersStore response.MetaExtra = some catcher
        then [response] else []) := by
  unfold deliver
  by_cases he : response.MetaExtra = ""
  · simp [he, deliveredTo]
  · cases hl : Load client.catchersStore response.MetaExtra with
    | none => simp [he, deliveredTo]
    | some value =>
      by_cases hv : value = catcher
      · simp [he, deliveredTo, hv]
      · simp [he, deliveredTo, hv]

theorem observed_deliver (client : Client) (response : Response) :
    observed (deliver client response) = [] := by
  unfold deliver
  by_cases he : response.MetaExtra = ""
  · simp [he, observed]
  · cases hl : Load client.catchersStore response.MetaExtra <;> simp [he, observed]

/-- C1: one iteration of `receiver` leaves the registry as it was, and the
responses it delivers into any channel `catcher` are exactly `[response]` when
the correlation id is non-empty and `catcher` is the channel registered under
that id, and none otherwise (empty id, or no entry under the id). -/
theorem receiverStep_delivers_only_to_registered_slot
    (UnmarshalType : String → Except Error TdType) (client : Client) (response : Response)
    (catcher : Chan) :
    (receiverStep UnmarshalType client response).client.catchersStore = client.catchersStore ∧
    deliveredTo catcher (receiverStep UnmarshalType client response).trace =
      (if response.MetaExtra ≠ "" ∧
          Load client.catchersStore response.MetaExtra = some catcher
        then [response] else []) := by
  rw [← deliveredTo_deliver]
  unfold receiverStep
  cases hu : UnmarshalType response.Data with
  | error e => exact ⟨rfl, rfl⟩
  | ok typ =>
    by_cases hcl : isAuthorizationStateClosed typ = true
    · by_cases hrc : client.responsesClosed = true
      · simp [hcl, hrc, deliveredTo_append, deliveredTo]
      · simp [hcl, hrc, deliveredTo_append, deliveredTo]
    · simp [hcl, deliveredTo_append, deliveredTo]

/-- C2: in one iteration of `receiver` the result handler is invoked exactly once,
with the decoded value, when `UnmarshalType` succeeds (whatever the correlation
id and the registry), and not at all when it fails; in the failing case the
iteration changes nothing, does not stop the loop, and `receiver` goes on with
the remaining messages. -/
theorem receiverStep_observer_iff_decoded
    (UnmarshalType : String → Except Error TdType) (client : Client) (response : Response)
    (rest : List Response) :
    match UnmarshalType response.Data with
    | .ok typ => observed (receiverStep UnmarshalType client response).trace = [typ]
    | .error _ =>
      observed (receiverStep UnmarshalType client response).trace = [] ∧
      (receiverStep UnmarshalType client response).panicked = false ∧
      (receiverStep UnmarshalType client response).client = client ∧
      receiver UnmarshalType client (response :: rest) =
        { receiver UnmarshalType client rest with
          trace := (receiverStep UnmarshalType client response).trace ++
            (receiver UnmarshalType client rest).trace } := by
  cases hu : UnmarshalType response.Data with
  | error e =>
    have hstep : receiverStep UnmarshalType client response =
        { client := client, trace := deliver client response, panicked := false } := by
      simp only [receiverStep, hu]
    refine ⟨?_, ?_, ?_, ?_⟩
    · rw [hstep]; exact observed_deliver client response
    · rw [hstep]
    · rw [hstep]
    · simp only [receiver]
      rw [hstep]
      simp
  | ok typ =>
    show observed (receiverStep UnmarshalType client response).trace = [typ]
    unfold receiverStep
    simp only [hu]
    by_cases hcl : isAuthorizationStateClosed typ = true
    · by_cases hrc : client.responsesClosed = true
      · simp [hcl, hrc, observed_append, observed_deliver, observed]
      · simp [hcl, hrc, observed_append, observed_deliver, observed]
    · simp [hcl, observed_append, observed_deliver, observed]

/-- C3: after `Send`, whichever way it returns (transport error, response
received, context done, fallback timeout), the registry has no entry under the
id assigned to the request and looks up every other id as before the call. -/
theorem Send_releases_pending_call (client : Client) (env : SendEnv) (k : String) :
    Load (Send client env).2.1.catchersStore k =
      (if k = env.extra then none else Load client.catchersStore k) := by
  have h : (Send client env).2.1.catchersStore =
      Delete (Store client.catchersStore env.extra env.catcher) env.extra := by
    unfold Send
    cases env.sendErr <;> rfl
  rw [h, Load_Delete]
  by_cases hk : k = env.extra
  · simp [hk]
  · simp [hk, Load_Store]

/-! ### authorization.go -/

theorem AuthorizeLoop_params_rounds {P : Type} (tdlibParams : P) (acc : Option Error)
    (k : Nat) (rounds : List Round) (trace : List (AuthEvent P)) :
    AuthorizeLoop tdlibParams acc (List.replicate k paramsRound ++ rounds) trace =
      AuthorizeLoop tdlibParams acc rounds
        (trace ++ (List.replicate k
          [AuthEvent.request AuthRequest.GetAuthorizationState,
           AuthEvent.request (AuthRequest.SetTdlibParameters tdlibParams)]).flatten) := by
  induction k generalizing trace with
  | zero => simp
  | succ n ih =>
    rw [List.replicate_succ, List.cons_append, AuthorizeLoop]
    have hp : paramsRound.state = .ok AuthorizationState.WaitTdlibParameters := rfl
    have hq : paramsRound.setParams = none := rfl
    simp only [hp, hq]
    rw [ih]
    simp [List.replicate_succ]

/-- C6, as the code has it: when the link `L` differs from the last link surfaced and
the sink accepts it, handling `WaitOtherDeviceConfirmation(L)` twice invokes the
sink exactly once in total: the first call invokes it with `L` and returns no
error, the second returns no error, invokes nothing and leaves the authorizer
as it is. -/
theorem qrAuthorizer_link_surfaced_once {P σ : Type} (stateHandler : qrAuthorizer P σ)
    (client : ClientCall P) (password1 password2 : String) (L : String)
    (hnew : L ≠ stateHandler.lastLink)
    (hsink : (stateHandler.LinkHandler stateHandler.sink L).1 = none) :
    let first := stateHandler.Handle client password1
      (AuthorizationState.WaitOtherDeviceConfirmation L)
    let second := first.2.Handle client password2
      (AuthorizationState.WaitOtherDeviceConfirmation L)
    sinkCalls (first.1.trace ++ second.1.trace) = 1 ∧
    first.1 = { err := none, trace := [AuthEvent.linkHandled L] } ∧
    second.1 = { err := none, trace := [] } ∧
    second.2 = first.2 := by
  intro first second
  have h1 : first = ({ err := none, trace := [AuthEvent.linkHandled L] },
      { stateHandler with
        sink := (stateHandler.LinkHandler stateHandler.sink L).2, lastLink := L }) := by
    show stateHandler.Handle client password1
      (AuthorizationState.WaitOtherDeviceConfirmation L) = _
    unfold qrAuthorizer.Handle
    simp only [hnew, if_false]
    cases hr : stateHandler.LinkHandler stateHandler.sink L with
    | mk e s2 =>
      rw [hr] at hsink
      simp only at hsink
      subst hsink
      rfl
  have h2 : second = ({ err := none, trace := [] }, first.2) := by
    show first.2.Handle client password2
      (AuthorizationState.WaitOtherDeviceConfirmation L) = _
    rw [h1]
    unfold qrAuthorizer.Handle
    simp
  refine ⟨?_, ?_, ?_, ?_⟩
  · rw [h2, h1]; simp [sinkCalls]
  · rw [h1]
  · rw [h2]
  · rw [h2]

/-- C6 (witness): a fresh authorizer whose sink accepts every link. -/
theorem qrAuthorizer_link_surfaced_once_witness :
    ("tg://login?token=abc" ≠ (QrAuthorizer () (fun (n : Nat) _ => (none, n + 1)) 0).lastLink) ∧
    ((QrAuthorizer () (fun (n : Nat) _ => (none, n + 1)) 0).LinkHandler
      (QrAuthorizer () (fun (n : Nat) _ => (none, n + 1)) 0).sink "tg://login?token=abc").1 = none ∧
    (let first := (QrAuthorizer () (fun (n : Nat) _ => (none, n + 1)) 0).Handle
        (fun _ => none) "" (AuthorizationState.WaitOtherDeviceConfirmation "tg://login?token=abc")
     let second := first.2.Handle (fun _ => none) ""
        (AuthorizationState.WaitOtherDeviceConfirmation "tg://login?token=abc")
     sinkCalls (first.1.trace ++ second.1.trace) = 1 ∧
     first.1 = { err := none, trace := [AuthEvent.linkHandled "tg://login?token=abc"] } ∧
     second.1 = { err := none, trace := [] } ∧
     second.2 = first.2) :=
  ⟨by decide, rfl,
   qrAuthorizer_link_surfaced_once (QrAuthorizer () (fun (n : Nat) _ => (none, n + 1)) 0)
     (fun _ => none) "" "" "tg://login?token=abc" (by decide) rfl⟩

/-- C6 (counterexample): on a fresh authorizer the empty link never reaches the
sink (no invocation in two deliveries), and a link that the sink rejects
reaches it on both deliveries, the second of which returns the error again. -/
theorem qrAuthorizer_link_not_always_once :
    (let first := (QrAuthorizer () (fun (n : Nat) _ => (none, n + 1)) 0).Handle
        (fun _ => none) "" (AuthorizationState.WaitOtherDeviceConfirmation "")
     let second := first.2.Handle (fun _ => none) ""
        (AuthorizationState.WaitOtherDeviceConfirmation "")
     sinkCalls (first.1.trace ++ second.1.trace) = 0) ∧
    (let first := (QrAuthorizer ()
        (fun (n : Nat) _ => (some (Error.other "sink failed"), n + 1)) 0).Handle
        (fun _ => none) "" (AuthorizationState.WaitOtherDeviceConfirmation "tg://login?token=abc")
     let second := first.2.Handle (fun _ => none) ""
        (AuthorizationState.WaitOtherDeviceConfirmation "tg://login?token=abc")
     sinkCalls (first.1.trace ++ second.1.trace) = 2 ∧
     second.1.err = some (Error.other "sink failed")) := by
  refine ⟨?_, ?_, ?_⟩ <;> decide

/-- C7: for each of the states WaitPassword, WaitOtherDeviceConfirmation,
WaitEmailAddress, WaitEmailCode, WaitCode, WaitRegistration and LoggingOut,
`botAuthorizer.Handle` returns the unsupported-state error carrying that state
and hands no request to the client. -/
theorem botAuthorizer_unsupported_states {P : Type} (stateHandler : botAuthorizer P)
    (client : ClientCall P) (link : String) :
    stateHandler.Handle client .WaitPassword =
      { err := some (Error.notSupportedAuthorizationState .WaitPassword), trace := [] } ∧
    stateHandler.Handle client (.WaitOtherDeviceConfirmation link) =
      { err := some (Error.notSupportedAuthorizationState (.WaitOtherDeviceConfirmation link)),
        trace := [] } ∧
    stateHandler.Handle client .WaitEmailAddress =
      { err := some (Error.notSupportedAuthorizationState .WaitEmailAddress), trace := [] } ∧
    stateHandler.Handle client .WaitEmailCode =
      { err := some (Error.notSupportedAuthorizationState .WaitEmailCode), trace := [] } ∧
    stateHandler.Handle client .WaitCode =
      { err := some (Error.notSupportedAuthorizationState .WaitCode), trace := [] } ∧
    stateHandler.Handle client .WaitRegistration =
      { err := some (Error.notSupportedAuthorizationState .WaitRegistration), trace := [] } ∧
    stateHandler.Handle client .LoggingOut =
      { err := some (Error.notSupportedAuthorizationState .LoggingOut), trace := [] } :=
  ⟨rfl, rfl, rfl, rfl, rfl, rfl, rfl⟩

/-- C8, as the code has it: on Ready all three authorizers return no error; on Closing
and Closed the interactive authorizer returns no error, while the token-based
and the link-based authorizers return the unsupported-state error carrying the
state, send nothing and (link-based) keep their state. -/
theorem authorizers_terminal_states {P σ : Type} (interactive : clientAuthorizer P)
    (bot : botAuthorizer P) (qr : qrAuthorizer P σ) (client : ClientCall P)
    (chans : ChannelInputs) (password : String) :
    ((interactive.Handle client chans .Ready).err = none ∧
     (interactive.Handle client chans .Closing).err = none ∧
     (interactive.Handle client chans .Closed).err = none) ∧
    (bot.Handle client .Ready = { err := none, trace := [] } ∧
     bot.Handle client .Closing =
       { err := some (Error.notSupportedAuthorizationState .Closing), trace := [] } ∧
     bot.Handle client .Closed =
       { err := some (Error.notSupportedAuthorizationState .Closed), trace := [] }) ∧
    (qr.Handle client password .Ready = ({ err := none, trace := [] }, qr) ∧
     qr.Handle client password .Closing =
       ({ err := some (Error.notSupportedAuthorizationState .Closing), trace := [] }, qr) ∧
     qr.Handle client password .Closed =
       ({ err := some (Error.notSupportedAuthorizationState .Closed), trace := [] }, qr)) :=
  ⟨⟨rfl, rfl, rfl⟩, ⟨rfl, rfl, rfl⟩, ⟨rfl, rfl, rfl⟩⟩

/-- C8 (counterexample): the token-based authorizer returns an error on Closing
and on Closed, and so does the link-based authorizer. -/
theorem bot_and_qr_reject_closing_and_closed :
    ((⟨(), "110201543:token"⟩ : botAuthorizer Unit).Handle (fun _ => none) .Closing).err ≠ none ∧
    ((⟨(), "110201543:token"⟩ : botAuthorizer Unit).Handle (fun _ => none) .Closed).err ≠ none ∧
    ((QrAuthorizer () (fun (n : Nat) _ => (none, n + 1)) 0).Handle
        (fun _ => none) "" .Closing).1.err ≠ none ∧
    ((QrAuthorizer () (fun (n : Nat) _ => (none, n + 1)) 0).Handle
        (fun _ => none) "" .Closed).1.err ≠ none := by
  refine ⟨?_, ?_, ?_, ?_⟩ <;> decide

/-- C10: when the first `k` fetched states are WaitTdlibParameters, each accepted
without error, and the next fetched state is another one, `Authorize` returns
there: it has fetched `k + 1` times and submitted the startup parameters after
each of the first `k` fetches, and it returns no error for Ready,
WaitPhoneNumber and WaitCode, the accumulated error (`nil`) for Closed, and the
unsupported-state error carrying the state for every other state. -/
theorem Authorize_returns_at_first_other_state {P : Type} (tdlibParams : P) (k : Nat)
    (state : AuthorizationState) (setParams : Option Error) (rest : List Round)
    (hstate : state ≠ AuthorizationState.WaitTdlibParameters) :
    ∃ trace, Authorize tdlibParams
        (List.replicate k paramsRound ++ { state := .ok state, setParams := setParams } :: rest)
        = some (authorizeVerdict state, trace) ∧
      requestsOf trace =
        (List.replicate k [AuthRequest.GetAuthorizationState,
          AuthRequest.SetTdlibParameters tdlibParams]).flatten ++
        [AuthRequest.GetAuthorizationState] := by
  have hreq : ∀ (n : Nat) (t : List (AuthEvent P)),
      requestsOf ((List.replicate n
          [AuthEvent.request AuthRequest.GetAuthorizationState,
           AuthEvent.request (AuthRequest.SetTdlibParameters tdlibParams)]).flatten ++ t) =
        (List.replicate n [AuthRequest.GetAuthorizationState,
          AuthRequest.SetTdlibParameters tdlibParams]).flatten ++ requestsOf t := by
    intro n t
    induction n with
    | zero => simp
    | succ m ih => simp [List.replicate_succ, requestsOf, ih]
  unfold Authorize
  rw [AuthorizeLoop_params_rounds]
  cases state with
  | WaitTdlibParameters => exact absurd rfl hstate
  | Ready =>
    refine ⟨_, rfl, ?_⟩
    rw [List.nil_append, List.append_assoc, hreq]; rfl
  | _ =>
    refine ⟨_, rfl, ?_⟩
    rw [List.nil_append, hreq]; rfl

/-- C10 (witness): two parameter rounds, then Closed. -/
theorem Authorize_returns_at_first_other_state_witness :
    AuthorizationState.Closed ≠ AuthorizationState.WaitTdlibParameters ∧
    ∃ trace, Authorize ()
        (List.replicate 2 paramsRound ++ { state := .ok .Closed, setParams := none } :: [])
        = some (authorizeVerdict .Closed, trace) ∧
      requestsOf trace =
        (List.replicate 2 [AuthRequest.GetAuthorizationState,
          AuthRequest.SetTdlibParameters ()]).flatten ++
        [AuthRequest.GetAuthorizationState] :=
  ⟨by decide, Authorize_returns_at_first_other_state () 2 .Closed none [] (by decide)⟩

/-! ### ratelimiter/strategy/windup.go -/

theorem capped_eq_min (r : ℚ) : (if r > maxRate then maxRate else r) = min maxRate r := by
  split
  · rw [min_eq_left]; linarith
  · rw [min_eq_right]; linarith

theorem min_cap_step (x : ℚ) :
    min (10 : ℚ) (min 10 x * (21 / 20)) = min 10 (x * (21 / 20)) := by
  rcases le_total x 10 with h | h
  · rw [min_eq_right h]
  · rw [min_eq_left h, min_eq_left, min_eq_left] <;> nlinarith

theorem WoundUp_first (now : Int) : WoundUp 0 (WindUp.Wait now) := by
  refine ⟨?_, ?_, ?_, ?_⟩
  · simp [windUp.Wait, WindUp, updateEvery]
  · simp [windUp.Wait, WindUp, updateEvery, windUpFactor]
  · simp [windUp.Wait, WindUp, updateEvery, wrapInt64]
  · simp [windUp.Wait, WindUp, updateEvery, startRate]
    norm_num

theorem WoundUp_Wait (m : Nat) (w : windUp) (now : Int) (h : WoundUp m w) :
    WoundUp (m + 1) (w.Wait now) := by
  obtain ⟨hu, hf, hr, hc⟩ := h
  rcases Nat.mod_two_eq_zero_or_one m with hm | hm
  · have hm1 : (m + 1) % 2 = 1 := by omega
    have hd : (m + 1) / 2 = m / 2 := by omega
    have hlt : ¬ (w.reqsSinceUpdate ≥ w.updateEvery) := by
      rw [hr, hu, hm]; decide
    refine ⟨?_, ?_, ?_, ?_⟩
    · simp only [windUp.Wait, hlt, if_false]; split <;> exact hu
    · simp only [windUp.Wait, hlt, if_false]; split <;> exact hf
    · simp only [windUp.Wait, hlt, if_false]
      rw [hm1]
      split <;> (simp only [hr, hm]; decide)
    · simp only [windUp.Wait, hlt, if_false]
      rw [hd]
      split <;> exact hc
  · have hm1 : (m + 1) % 2 = 0 := by omega
    have hd : (m + 1) / 2 = m / 2 + 1 := by omega
    have hge : w.reqsSinceUpdate ≥ w.updateEvery := by
      rw [hr, hu, hm]; decide
    refine ⟨?_, ?_, ?_, ?_⟩
    · simp only [windUp.Wait, hge, if_true, windUp.updateRate]; split <;> exact hu
    · simp only [windUp.Wait, hge, if_true, windUp.updateRate]; split <;> exact hf
    · simp only [windUp.Wait, hge, if_true, windUp.updateRate]
      rw [hm1]
      split <;> (show wrapInt64 (0 + 1) = ((0 : Nat) : Int) + 1; decide)
    · simp only [windUp.Wait, hge, if_true, windUp.updateRate]
      rw [hd]
      have key : (if w.currentRate * w.windUpFactor > maxRate then maxRate
          else w.currentRate * w.windUpFactor) = min 10 (2 * (21 / 20) ^ (m / 2 + 1)) := by
        rw [capped_eq_min, hc, hf]
        show min (10 : ℚ) _ = _
        rw [min_cap_step, pow_succ, mul_assoc]
      split <;> exact key

theorem WoundUp_runWaits (nows : List Int) (now : Int) :
    WoundUp nows.length (runWaits WindUp (nows ++ [now])) := by
  induction nows using List.reverseRecOn generalizing now with
  | nil => exact WoundUp_first now
  | append_singleton l a ih =>
    have h := WoundUp_Wait l.length (runWaits WindUp (l ++ [a])) now (ih a)
    have e : runWaits WindUp (l ++ [a] ++ [now]) = (runWaits WindUp (l ++ [a])).Wait now := by
      simp [runWaits, List.foldl_append]
    rw [e, List.length_append]
    exact h

/-- C4: starting from `WindUp()` and with no penalty event, after `n >= 1` calls of
`Wait` (at any clock readings) `CurrentRate` is
`min(maxRate, startRate * windUpFactor^floor((n-1)/updateEvery))` in exact
arithmetic, and it does not exceed `maxRate`. -/
theorem WindUp_rate_after_waits (nows : List Int) (hn : 1 ≤ nows.length) :
    (runWaits WindUp nows).CurrentRate = windUpRateAfter nows.length ∧
    (runWaits WindUp nows).CurrentRate ≤ maxRate := by
  have hne : nows ≠ [] := by
    intro h; rw [h] at hn; simp at hn
  have heq : (runWaits WindUp nows).CurrentRate = windUpRateAfter nows.length := by
    obtain ⟨l, a, rfl⟩ : ∃ l a, nows = l ++ [a] :=
      ⟨nows.dropLast, nows.getLast hne, (List.dropLast_append_getLast hne).symm⟩
    obtain ⟨_, _, _, hc⟩ := WoundUp_runWaits l a
    rw [windUp.CurrentRate, hc]
    simp [windUpRateAfter, maxRate, startRate, windUpFactor, updateEvery]
  refine ⟨heq, ?_⟩
  rw [heq]
  exact min_le_left _ _

/-- C4 (witness): five admitted requests give the rate 2 * 1.05^2. -/
theorem WindUp_rate_after_waits_witness :
    1 ≤ [10, 20, 30, 40, 50].length ∧
    (runWaits WindUp [10, 20, 30, 40, 50]).CurrentRate = windUpRateAfter [10, 20, 30, 40, 50].length ∧
    (runWaits WindUp [10, 20, 30, 40, 50]).CurrentRate ≤ maxRate :=
  ⟨by decide, WindUp_rate_after_waits [10, 20, 30, 40, 50] (by decide)⟩

theorem secondsDuration_in_range (secs : Int) (h0 : 0 ≤ secs)
    (h1 : secs * 1000000000 ≤ 2 ^ 63 - 1) :
    sleepTime (secondsDuration secs) = secs * 1000000000 := by
  have e : secondsDuration secs = secs * 1000000000 := by
    unfold secondsDuration wrapInt64
    have hmod : (secs * 1000000000 + 2 ^ 63) % 2 ^ 64 = secs * 1000000000 + 2 ^ 63 :=
      Int.emod_eq_of_lt (by nlinarith) (by nlinarith)
    rw [hmod]; ring
  rw [e]
  unfold sleepTime
  split
  · nlinarith
  · rfl

/-- C5, as the code has it: on a `windUp` that is not serving a penalty, for `0 <= S` with
`S` seconds within the `Duration` range, `FloodWaitEvent(S)` programs the rate
`min(maxRate, R / (E + S))` when there is history (`maxRate` when `E + S` is
zero) and `startRate` when there is none, sleeps `S` seconds, and returns with
the since-penalty counter 0, the first-request timestamp unset and the
penalized flag cleared; `E` is the time from the first request to now. -/
theorem FloodWaitEvent_recomputes_rate (w : windUp) (now secs : Int)
    (hserving : w.isServingPenalty = false) (h0 : 0 ≤ secs)
    (hrange : secs * 1000000000 ≤ 2 ^ 63 - 1) :
    w.FloodWaitEvent now secs =
      ({ w with currentRate := penaltyRate w now secs, limiter := penaltyRate w now secs,
                reqsSinceUpdate := 0, reqsSinceFW := 0, firstReqSinceFW := 0,
                isServingPenalty := false },
        some (penaltyRate w now secs, secs * 1000000000)) ∧
    (0 ≤ now - w.firstReqSinceFW → now - w.firstReqSinceFW ≤ 2 ^ 63 - 1 →
      reqsDuration now w.firstReqSinceFW = ((now - w.firstReqSinceFW : Int) : ℚ) / 1000000000) := by
  constructor
  · unfold windUp.FloodWaitEvent
    rw [secondsDuration_in_range secs h0 hrange]
    simp only [hserving]
    by_cases hh : w.firstReqSinceFW ≠ 0 ∧ w.reqsSinceFW > 0
    · by_cases hz : reqsDuration now w.firstReqSinceFW + (secs : ℚ) = 0
      · simp [penaltyRate, hh, hz, divF64, windUp.updateRate]
      · simp [penaltyRate, hh, hz, divF64, windUp.updateRate, capped_eq_min]
    · have hs : (if startRate > maxRate then maxRate else startRate) = startRate := by
        norm_num [startRate, maxRate]
      simp only [penaltyRate, hh, if_false, windUp.updateRate, hs]
      simp
  · intro ha hb
    unfold reqsDuration timeSub durationAbs durationSeconds
    have h1 : ¬ (now - w.firstReqSinceFW > 2 ^ 63 - 1) := by omega
    have h2 : ¬ (now - w.firstReqSinceFW < -(2 ^ 63)) := by omega
    simp only [h1, h2, if_false, ha, ge_iff_le, if_true]

/-- C5 (witness): two requests over two seconds, then a penalty of three seconds. -/
theorem FloodWaitEvent_recomputes_rate_witness :
    twoRequests.isServingPenalty = false ∧ (0 : Int) ≤ 3 ∧
    (3 : Int) * 1000000000 ≤ 2 ^ 63 - 1 ∧
    (twoRequests.FloodWaitEvent 3000000000 3 =
      ({ twoRequests with
          currentRate := (penaltyRate twoRequests 3000000000 3),
          limiter := (penaltyRate twoRequests 3000000000 3),
          reqsSinceUpdate := (0 : Int), reqsSinceFW := (0 : Int), firstReqSinceFW := (0 : Int),
          isServingPenalty := false },
        some (penaltyRate twoRequests 3000000000 3, 3 * 1000000000)) ∧
    (0 ≤ 3000000000 - twoRequests.firstReqSinceFW →
      3000000000 - twoRequests.firstReqSinceFW ≤ 2 ^ 63 - 1 →
      reqsDuration 3000000000 twoRequests.firstReqSinceFW =
        ((3000000000 - twoRequests.firstReqSinceFW : Int) : ℚ) / 1000000000)) :=
  ⟨by decide, by decide, by decide,
   FloodWaitEvent_recomputes_rate twoRequests 3000000000 3 (by decide) (by decide) (by decide)⟩

/-- C5 (counterexample): a penalty of 9223372037 seconds on the initial state,
which is not serving a penalty: the 64-bit product with `time.Second` is
negative, and `FloodWaitEvent` returns without sleeping at all. -/
theorem FloodWaitEvent_overflowing_penalty_does_not_sleep :
    WindUp.isServingPenalty = false ∧ (0 : Int) ≤ 9223372037 ∧
    secondsDuration 9223372037 < 0 ∧
    (WindUp.FloodWaitEvent 0 9223372037).2 = some (startRate, 0) ∧
    (WindUp.FloodWaitEvent 0 9223372037).2 ≠ some (startRate, 9223372037 * 1000000000) := by
  refine ⟨by decide, by decide, by decide, ?_, ?_⟩
  · decide
  · decide

/-! ### ratelimiter/ratelimiter.go -/

theorem matchFloodWaitHere_eq_some (s digits : List Char) :
    matchFloodWaitHere s = some digits ↔
      ∃ post, s = floodWaitMarker ++ digits ++ post ∧ digits ≠ [] ∧
        (∀ c ∈ digits, c.isDigit = true) ∧ (∀ c, post.head? = some c → c.isDigit = false) := by
  constructor
  · intro h
    unfold matchFloodWaitHere at h
    by_cases hp : floodWaitMarker.isPrefixOf s = true
    · simp only [hp, if_true] at h
      obtain ⟨t, rfl⟩ := List.isPrefixOf_iff_prefix.1 hp
      rw [List.drop_left] at h
      by_cases hd : List.takeWhile Char.isDigit t = []
      · simp [hd] at h
      · simp only [hd, if_false, Option.some.injEq] at h
        refine ⟨List.dropWhile Char.isDigit t, ?_, ?_, ?_, ?_⟩
        · rw [List.append_assoc, ← h, List.takeWhile_append_dropWhile]
        · rw [← h]; exact hd
        · intro c hc
          rw [← h] at hc
          exact List.mem_takeWhile_imp hc
        · intro c hc
          have := List.head?_dropWhile_not Char.isDigit t
          rw [hc] at this
          exact this
    · simp [hp] at h
  · rintro ⟨post, rfl, hne, hall, hpost⟩
    unfold matchFloodWaitHere
    have hp : floodWaitMarker.isPrefixOf (floodWaitMarker ++ digits ++ post) = true := by
      rw [ List.isPrefixOf_iff_prefix, List.append_assoc]
      exact List.prefix_append _ _
    have ht : List.takeWhile Char.isDigit post = [] := by
      cases post with
      | nil => rfl
      | cons c t =>
        have := hpost c rfl
        simp [List.takeWhile_cons, this]
    simp only [hp, if_true]
    rw [List.append_assoc, List.drop_left, List.takeWhile_append_of_pos hall, ht,
      List.append_nil]
    simp [hne]

theorem findFloodWaitSubmatch_eq_some (msg digits : List Char) :
    findFloodWaitSubmatch msg = some digits ↔
      ∃ pre suf, msg = pre ++ suf ∧ matchFloodWaitHere suf = some digits ∧
        ∀ pre2 suf2, msg = pre2 ++ suf2 → pre2.length < pre.length →
          matchFloodWaitHere suf2 = none := by
  induction msg with
  | nil =>
    constructor
    · intro h; simp [findFloodWaitSubmatch] at h
    · rintro ⟨pre, suf, h, hm, _⟩
      have hs : suf = [] := (List.append_eq_nil.1 h.symm).2
      rw [hs] at hm
      have hnil : matchFloodWaitHere [] = none := by decide
      rw [hnil] at hm
      exact absurd hm (by simp)
  | cons c cs ih =>
    cases hm : matchFloodWaitHere (c :: cs) with
    | some d =>
      have hf : findFloodWaitSubmatch (c :: cs) = some d := by
        simp only [findFloodWaitSubmatch, hm]
      rw [hf]
      constructor
      · intro h
        have hd : d = digits := by simpa using h
        subst hd
        exact ⟨[], c :: cs, rfl, hm, fun _ _ _ hl => absurd hl (by simp)⟩
      · rintro ⟨pre, suf, h, hs, hleft⟩
        cases pre with
        | nil =>
          simp only [List.nil_append] at h
          rw [← h, hm] at hs
          exact hs
        | cons a p =>
          have := hleft [] (c :: cs) rfl (by simp)
          rw [hm] at this
          exact absurd this (by simp)
    | none =>
      have hf : findFloodWaitSubmatch (c :: cs) = findFloodWaitSubmatch cs := by
        simp only [findFloodWaitSubmatch, hm]
      rw [hf, ih]
      constructor
      · rintro ⟨pre, suf, h, hs, hleft⟩
        refine ⟨c :: pre, suf, by rw [h]; rfl, hs, ?_⟩
        intro pre2 suf2 h2 hl
        cases pre2 with
        | nil =>
          simp only [List.nil_append] at h2
          rw [← h2]; exact hm
        | cons a p2 =>
          simp only [List.cons_append, List.cons.injEq] at h2
          exact hleft p2 suf2 h2.2 (by simpa using hl)
      · rintro ⟨pre, suf, h, hs, hleft⟩
        cases pre with
        | nil =>
          simp only [List.nil_append] at h
          rw [← h, hm] at hs
          exact absurd hs (by simp)
        | cons a p =>
          simp only [List.cons_append, List.cons.injEq] at h
          refine ⟨p, suf, h.2, hs, ?_⟩
          intro pre2 suf2 h2 hl
          exact hleft (c :: pre2) suf2 (by rw [h2]; rfl) (by simpa using hl)

theorem findFloodWaitSubmatch_iff_leftmost (msg digits : List Char) :
    findFloodWaitSubmatch msg = some digits ↔ LeftmostFloodWait msg digits := by
  rw [findFloodWaitSubmatch_eq_some]
  constructor
  · rintro ⟨pre, suf, h, hs, hleft⟩
    obtain ⟨post, rfl, hne, hall, hpost⟩ := (matchFloodWaitHere_eq_some suf digits).1 hs
    refine ⟨pre, post, ⟨by rw [h]; simp [List.append_assoc], hne, hall, hpost⟩, ?_⟩
    rintro pre2 digits2 post2 ⟨h2, hne2, hall2, hpost2⟩
    by_contra hlt
    have hnone := hleft pre2 (floodWaitMarker ++ digits2 ++ post2)
      (by rw [h2]; simp [List.append_assoc]) (by omega)
    have hsome := (matchFloodWaitHere_eq_some (floodWaitMarker ++ digits2 ++ post2) digits2).2
      ⟨post2, rfl, hne2, hall2, hpost2⟩
    rw [hnone] at hsome
    exact absurd hsome (by simp)
  · rintro ⟨pre, post, ⟨h, hne, hall, hpost⟩, hleft⟩
    refine ⟨pre, floodWaitMarker ++ digits ++ post, by rw [h]; simp [List.append_assoc],
      (matchFloodWaitHere_eq_some _ _).2 ⟨post, rfl, hne, hall, hpost⟩, ?_⟩
    intro pre2 suf2 h2 hl
    cases hm : matchFloodWaitHere suf2 with
    | none => rfl
    | some d2 =>
      obtain ⟨post2, rfl, hne2, hall2, hpost2⟩ := (matchFloodWaitHere_eq_some suf2 d2).1 hm
      have := hleft pre2 d2 post2 ⟨by rw [h2]; simp [List.append_assoc], hne2, hall2, hpost2⟩
      omega

theorem floodWaitCalls_TDLibCallback (level : Int) (message : String) :
    floodWaitCalls (TDLibCallback level message) =
      if level = 2 then
        match findFloodWaitSubmatch message.toList with
        | none => []
        | some digits =>
          if decimalValue digits ≤ 32767 then [(decimalValue digits : Int)] else []
      else [] := by
  unfold TDLibCallback
  by_cases hl : level = 2
  · simp only [hl, ne_eq, not_true_eq_false, if_false, if_true]
    cases findFloodWaitSubmatch message.toList with
    | none => rfl
    | some digits =>
      by_cases hr : decimalValue digits ≤ 32767
      · simp only [ParseInt16, hr, if_true]
        split <;> simp [floodWaitCalls]
      · simp only [ParseInt16, hr, if_false]
        rfl
  · simp [hl, floodWaitCalls]

/-- C9, as the code has it: `TDLibCallback` calls the strategy's `FloodWaitEvent` exactly
once, with `n` seconds, if and only if the verbosity level is 2, the message
contains `FLOOD_WAIT_` immediately followed by a decimal integer (leftmost such
occurrence, digits taken maximally), that integer is at most 32767 and it is
`n`; in every other case (another level, no such pattern, a larger integer) it
does not call the strategy. -/
theorem TDLibCallback_penalty_iff (level : Int) (message : String) (n : Int) :
    (floodWaitCalls (TDLibCallback level message) = [n] ↔
      level = 2 ∧ ∃ digits, LeftmostFloodWait message.toList digits ∧
        decimalValue digits ≤ 32767 ∧ n = (decimalValue digits : Int)) ∧
    (floodWaitCalls (TDLibCallback level message) = [] ↔
      ¬ (level = 2 ∧ ∃ digits, LeftmostFloodWait message.toList digits ∧
        decimalValue digits ≤ 32767)) := by
  rw [floodWaitCalls_TDLibCallback]
  by_cases hl : level = 2
  · simp only [hl, if_true, true_and]
    cases hf : findFloodWaitSubmatch message.toList with
    | none =>
      have hno : ∀ digits, ¬ LeftmostFloodWait message.toList digits := by
        intro digits hd
        rw [← findFloodWaitSubmatch_iff_leftmost, hf] at hd
        exact absurd hd (by simp)
      constructor
      · constructor
        · intro h; exact absurd h (by simp)
        · rintro ⟨digits, hd, _⟩; exact absurd hd (hno digits)
      · constructor
        · rintro _ ⟨digits, hd, _⟩; exact hno digits hd
        · intro _; rfl
    | some d =>
      have huniq : ∀ digits, LeftmostFloodWait message.toList digits → digits = d := by
        intro digits hd
        rw [← findFloodWaitSubmatch_iff_leftmost, hf] at hd
        simpa using hd.symm
      have hd : LeftmostFloodWait message.toList d :=
        (findFloodWaitSubmatch_iff_leftmost _ _).1 hf
      by_cases hr : decimalValue d ≤ 32767
      · simp only [hr, if_true]
        constructor
        · constructor
          · intro h
            exact ⟨d, hd, hr, by simpa using h.symm⟩
          · rintro ⟨digits, hdig, _, hn⟩
            rw [huniq digits hdig] at hn
            rw [hn]
        · constructor
          · intro h; exact absurd h (by simp)
          · intro h; exact absurd ⟨d, hd, hr⟩ h
      · simp only [hr, if_false]
        constructor
        · constructor
          · intro h; exact absurd h (by simp)
          · rintro ⟨digits, hdig, hle, _⟩
            rw [huniq digits hdig] at hle
            exact absurd hle hr
        · constructor
          · rintro _ ⟨digits, hdig, hle⟩
            rw [huniq digits hdig] at hle
            exact hr hle
          · intro _; trivial
  · simp [hl]

/-- C9 (counterexample): at level 2 the message `FLOOD_WAIT_40000` contains the
marker followed by the decimal integer 40000, and `TDLibCallback` does nothing. -/
theorem TDLibCallback_ignores_large_penalty :
    LeftmostFloodWait "FLOOD_WAIT_40000".toList "40000".toList ∧
    decimalValue "40000".toList = 40000 ∧
    TDLibCallback 2 "FLOOD_WAIT_40000" = [] :=
  ⟨(findFloodWaitSubmatch_iff_leftmost _ _).1 (by decide), by decide, by decide⟩

end GoTdlib

